import Mathlib

/-!
Shallow embedding of the Auto Mode orchestrator service (auto-mode service file)
of the Automaker repository, together with proofs about its scheduler,
per-feature lifecycle, cancellation, revert and merge behaviour.

External collaborators (feature loader/store, worktree manager, execution
engine, context manager) are modelled as outcome oracles in an environment
record: each call site consults the oracle (indexed by a per-collaborator
call counter) and either receives a value or observes a thrown exception,
modelled as the error branch of an exceptional result.  The orchestrator's
own mutable state (the running-executions registry, the per-project loop
table, the persisted feature list, the context transcript and the emitted
events) is threaded explicitly.
-/

namespace AutoMode

/-- Lifecycle status of a work item, as stored by the feature store. -/
inductive Status where
  | backlog
  | in_progress
  | waiting_approval
  | verified
deriving DecidableEq, Repr

/-- A work item (feature) as persisted by the feature store. -/
structure Feature where
  id : String
  description : String
  status : Status
  skipTests : Bool
  worktreePath : Option String
  branchName : Option String
  errorMessage : Option String
deriving DecidableEq, Repr

/-- The orchestrator's bookkeeping record for one active run (an entry of
the runningFeatures registry). -/
structure Execution where
  projectPath : String
  worktreePath : Option String
  branchName : Option String
  hasAbortController : Bool
deriving DecidableEq, Repr

/-- A fresh execution context, as built by createExecutionContext: every
field null until populated. -/
def createExecutionContext : Execution :=
  { projectPath := "", worktreePath := none, branchName := none,
    hasAbortController := false }

/-- Per-project auto-loop state (an entry of the projectLoops map). -/
structure LoopState where
  isRunning : Bool
  hasInterval : Bool
  hasAbortController : Bool
  loopAborted : Bool
  maxConcurrency : Int
deriving DecidableEq, Repr

/-- Events emitted to the renderer; emitEvent stamps every event with the
projectPath. -/
inductive Event where
  | feature_start (projectPath featureId : String)
  | progress (projectPath featureId content : String)
  | phase (projectPath featureId ph message : String)
  | feature_complete (projectPath featureId : String) (passes : Bool) (message : String)
  | auto_mode_error (projectPath err featureId : String)
deriving DecidableEq, Repr

/-- Result of an execution-engine implementation / verification call. -/
structure ImplResult where
  passes : Bool
  message : String
deriving DecidableEq, Repr

/-- Result object returned by worktreeManager.createWorktree. -/
structure CreateWorktreeResult where
  success : Bool
  worktreePath : String
  branchName : String
  baseBranch : String
  error : String
deriving DecidableEq, Repr

/-- Result object returned by worktreeManager.removeWorktree. -/
structure RemoveWorktreeResult where
  success : Bool
  removedPath : String
  error : String
deriving DecidableEq, Repr

/-- Result object returned by worktreeManager.mergeWorktree. -/
structure MergeWorktreeResult where
  success : Bool
  mergedBranch : String
  intoBranch : String
  error : String
deriving DecidableEq, Repr

/-! Association-list rendering of a JS Map: set on an existing key updates
it in place, set on a fresh key appends, delete removes. -/

/-- Membership test of a JS-Map-like association list. -/
def mapHas (m : List (String × α)) (k : String) : Bool :=
  m.any (fun p => p.1 == k)

/-- Lookup in a JS-Map-like association list. -/
def mapGet (m : List (String × α)) (k : String) : Option α :=
  (m.find? (fun p => p.1 == k)).map (fun p => p.2)

/-- Insertion / in-place update in a JS-Map-like association list. -/
def mapSet (m : List (String × α)) (k : String) (v : α) : List (String × α) :=
  if mapHas m k then
    m.map (fun p => if p.1 == k then (k, v) else p)
  else
    m ++ [(k, v)]

/-- Deletion from a JS-Map-like association list. -/
def mapDelete (m : List (String × α)) (k : String) : List (String × α) :=
  m.filter (fun p => p.1 != k)

/-- Mutable world threaded through every orchestrator call: the registry and
loop table owned by the service, the single project's persisted feature
list, the context transcript for the feature under discussion, the emitted
events, the abort signals sent to engine calls, and one call counter per
fallible collaborator. -/
structure St where
  runningFeatures : List (String × Execution)
  projectLoops : List (String × LoopState)
  features : List Feature
  transcript : Option String
  events : List Event
  abortSignals : List String
  loadCalls : Nat
  statusCalls : Nat
  worktreeUpdateCalls : Nat
  writeCtxCalls : Nat
  readCtxCalls : Nat
  deleteCtxCalls : Nat
  implementCalls : Nat
  verifyCalls : Nat
  resumeCalls : Nat
  commitCalls : Nat
deriving DecidableEq, Repr

/-- Environment of collaborator outcomes: field n gives the outcome of the
n-th call to that collaborator (an error value models a thrown exception). -/
structure Env where
  loadOutcome : Nat → Except String Unit
  statusOutcome : Nat → Except String Unit
  worktreeUpdateOutcome : Nat → Except String Unit
  writeCtxOutcome : Nat → Except String Unit
  readCtxOutcome : Nat → Except String Unit
  deleteCtxOutcome : Nat → Except String Unit
  isGitRepo : Except String Bool
  createWorktree : Except String CreateWorktreeResult
  removeWorktree : Except String RemoveWorktreeResult
  mergeWorktree : Except String MergeWorktreeResult
  implementOutcome : Nat → Except String ImplResult
  verifyOutcome : Nat → Except String ImplResult
  resumeOutcome : Nat → Except String ImplResult
  resumeStore : Nat → Option (List Feature)
  commitOnlyOutcome : Nat → Except String Unit

/-! Collaborator call wrappers.  Each consults the environment at the
current call index, advances the counter, and performs the store / context
mutation the collaborator is responsible for. -/

/-- featureLoader.loadFeatures: returns the persisted feature list. -/
def loadFeatures (env : Env) (st : St) : Except String (List Feature) × St :=
  let st' := { st with loadCalls := st.loadCalls + 1 }
  match env.loadOutcome st.loadCalls with
  | .error e => (.error e, st')
  | .ok _ => (.ok st.features, st')

/-- Store-level effect of featureLoader.updateFeatureStatus on the feature
list. -/
def setFeatureStatus (fs : List Feature) (featureId : String) (s : Status)
    (err : Option String) : List Feature :=
  fs.map (fun f => if f.id == featureId then { f with status := s, errorMessage := err } else f)

/-- featureLoader.updateFeatureStatus: persists a status (and optional error
message) for one feature. -/
def updateFeatureStatus (env : Env) (st : St) (featureId : String) (s : Status)
    (err : Option String) : Except String Unit × St :=
  let st' := { st with statusCalls := st.statusCalls + 1 }
  match env.statusOutcome st.statusCalls with
  | .error e => (.error e, st')
  | .ok _ => (.ok (), { st' with features := setFeatureStatus st'.features featureId s err })

/-- Store-level effect of featureLoader.updateFeatureWorktree on the
feature list. -/
def setFeatureWorktree (fs : List Feature) (featureId : String)
    (wt br : Option String) : List Feature :=
  fs.map (fun f => if f.id == featureId then { f with worktreePath := wt, branchName := br } else f)

/-- featureLoader.updateFeatureWorktree: persists the worktree binding of
one feature. -/
def updateFeatureWorktree (env : Env) (st : St) (featureId : String)
    (wt br : Option String) : Except String Unit × St :=
  let st' := { st with worktreeUpdateCalls := st.worktreeUpdateCalls + 1 }
  match env.worktreeUpdateOutcome st.worktreeUpdateCalls with
  | .error e => (.error e, st')
  | .ok _ => (.ok (), { st' with features := setFeatureWorktree st'.features featureId wt br })

/-- contextManager.writeToContextFile: appends text to the transcript
(creating it when absent). -/
def writeToContextFile (env : Env) (st : St) (text : String) :
    Except String Unit × St :=
  let st' := { st with writeCtxCalls := st.writeCtxCalls + 1 }
  match env.writeCtxOutcome st.writeCtxCalls with
  | .error e => (.error e, st')
  | .ok _ => (.ok (), { st' with transcript := some ((st.transcript.getD "") ++ text) })

/-- contextManager.readContextFile: reads the transcript. -/
def readContextFile (env : Env) (st : St) : Except String String × St :=
  let st' := { st with readCtxCalls := st.readCtxCalls + 1 }
  match env.readCtxOutcome st.readCtxCalls with
  | .error e => (.error e, st')
  | .ok _ => (.ok (st.transcript.getD ""), st')

/-- contextManager.deleteContextFile: deletes the transcript. -/
def deleteContextFile (env : Env) (st : St) : Except String Unit × St :=
  let st' := { st with deleteCtxCalls := st.deleteCtxCalls + 1 }
  match env.deleteCtxOutcome st.deleteCtxCalls with
  | .error e => (.error e, st')
  | .ok _ => (.ok (), { st' with transcript := none })

/-- featureExecutor.implementFeature: one engine implementation call. -/
def implementFeature (env : Env) (st : St) : Except String ImplResult × St :=
  let st' := { st with implementCalls := st.implementCalls + 1 }
  match env.implementOutcome st.implementCalls with
  | .error e => (.error e, st')
  | .ok r => (.ok r, st')

/-- featureVerifier.verifyFeatureTests: one engine verification call. -/
def verifyFeatureTests (env : Env) (st : St) : Except String ImplResult × St :=
  let st' := { st with verifyCalls := st.verifyCalls + 1 }
  match env.verifyOutcome st.verifyCalls with
  | .error e => (.error e, st')
  | .ok r => (.ok r, st')

/-- featureExecutor.resumeFeatureWithContext: one engine resume call; the
engine may rewrite the persisted feature list out of band. -/
def resumeFeatureWithContext (env : Env) (st : St) : Except String ImplResult × St :=
  let st' := { st with resumeCalls := st.resumeCalls + 1,
                       features := (env.resumeStore st.resumeCalls).getD st.features }
  match env.resumeOutcome st.resumeCalls with
  | .error e => (.error e, st')
  | .ok r => (.ok r, st')

/-- featureExecutor.commitChangesOnly: one commit-only engine call. -/
def commitChangesOnly (env : Env) (st : St) : Except String Unit × St :=
  let st' := { st with commitCalls := st.commitCalls + 1 }
  match env.commitOnlyOutcome st.commitCalls with
  | .error e => (.error e, st')
  | .ok _ => (.ok (), st')

/-- Helper emitEvent: appends an event (already stamped with projectPath). -/
def emitEvent (st : St) (e : Event) : St :=
  { st with events := st.events ++ [e] }

/-- getRunningFeaturesForProject: ids in the registry whose execution
belongs to the given project. -/
def getRunningFeaturesForProject (st : St) (projectPath : String) : List String :=
  (st.runningFeatures.filter (fun p => p.2.projectPath == projectPath)).map (fun p => p.1)

/-- getRunningCountForProject: number of registry entries for a project. -/
def getRunningCountForProject (st : St) (projectPath : String) : Nat :=
  (st.runningFeatures.filter (fun p => p.2.projectPath == projectPath)).length

/-- Updates the registered execution record of a feature with the resolved
worktree path and branch (the source mutates the aliased execution object
after setupWorktreeForFeature returns). -/
def updateExecutionInfo (st : St) (featureId : String) (wt br : Option String) : St :=
  let upd := fun (p : String × Execution) =>
    if p.1 == featureId then (p.1, { p.2 with worktreePath := wt, branchName := br }) else p
  { st with runningFeatures := st.runningFeatures.map upd }

/-- Result of setupWorktreeForFeature. -/
structure SetupResult where
  useWorktree : Bool
  workPath : String
  branchName : Option String
  baseBranch : Option String
deriving DecidableEq, Repr

/-- setupWorktreeForFeature: resolves git-worktree isolation for a feature.
Returns the non-isolated fallback when worktrees are disabled, the project
is not a git repository, or worktree creation reports failure; persists the
binding and returns the isolated path only on creation success. -/
def setupWorktreeForFeature (env : Env) (st : St) (feature : Feature)
    (projectPath : String) (useWorktreesEnabled : Bool) : Except String SetupResult × St :=
  if !useWorktreesEnabled then
    (.ok { useWorktree := false, workPath := projectPath, branchName := none, baseBranch := none }, st)
  else
    match env.isGitRepo with
    | .error e => (.error e, st)
    | .ok isGit =>
      if !isGit then
        (.ok { useWorktree := false, workPath := projectPath, branchName := none, baseBranch := none }, st)
      else
        let st := emitEvent st (.progress projectPath feature.id "Creating isolated worktree for feature...\n")
        match env.createWorktree with
        | .error e => (.error e, st)
        | .ok result =>
          if !result.success then
            let st := emitEvent st (.progress projectPath feature.id
              ("Warning: Could not create worktree (" ++ result.error ++ "). Working directly on main project.\n"))
            (.ok { useWorktree := false, workPath := projectPath, branchName := none, baseBranch := none }, st)
          else
            let st := emitEvent st (.progress projectPath feature.id
              ("Working in isolated branch: " ++ result.branchName ++ "\n"))
            match updateFeatureWorktree env st feature.id (some result.worktreePath) (some result.branchName) with
            | (.error e, st) => (.error e, st)
            | (.ok _, st) =>
              (.ok { useWorktree := true, workPath := result.worktreePath,
                     branchName := some result.branchName, baseBranch := some result.baseBranch }, st)

/-- Result of stop. -/
structure StopResult where
  success : Bool
  runningFeatures : Nat
deriving DecidableEq, Repr

/-- stop: turns off a project's auto loop, clears its interval timer and
aborts only the loop's own abort controller; running executions are left
untouched.  Returns the count of executions still running for the project. -/
def stop (st : St) (projectPath : String) : StopResult × St :=
  match mapGet st.projectLoops projectPath with
  | none => ({ success := true, runningFeatures := 0 }, st)
  | some projectState =>
    let ps := { projectState with isRunning := false }
    let ps := if ps.hasInterval then { ps with hasInterval := false } else ps
    let ps := if ps.hasAbortController then { ps with loopAborted := true, hasAbortController := false } else ps
    let st := { st with projectLoops := mapSet st.projectLoops projectPath ps }
    let runningCount := getRunningCountForProject st projectPath
    ({ success := true, runningFeatures := runningCount }, st)

/-- Result of stopFeature. -/
structure StopFeatureResult where
  success : Bool
  error : Option String
deriving DecidableEq, Repr

/-- stopFeature: typed-failure result when the id is not in the registry;
otherwise signals the execution's abort controller (when one was attached)
and removes the registry entry immediately. -/
def stopFeature (st : St) (featureId : String) : StopFeatureResult × St :=
  if !(mapHas st.runningFeatures featureId) then
    ({ success := false, error := some ("Feature " ++ featureId ++ " is not running") }, st)
  else
    let st :=
      match mapGet st.runningFeatures featureId with
      | some execution =>
        if execution.hasAbortController then { st with abortSignals := st.abortSignals ++ [featureId] } else st
      | none => st
    let st := { st with runningFeatures := mapDelete st.runningFeatures featureId }
    ({ success := true, error := none }, st)

/-- Text block appended to the transcript by the shared catch handler (the
source also appends the stack trace, which has no counterpart in the
model). -/
def errorBlock (errMsg : String) : String :=
  "\n\nERROR: " ++ errMsg ++ "\n\n\n"

/-- Catch-block code shared verbatim by runFeature, verifyFeature,
resumeFeature, startFeatureAsync and runFollowUpWork: best-effort append of
the error to the transcript, best-effort status update to waiting_approval
carrying the error message, then an auto_mode_error event.  Both inner
writes swallow their own failures. -/
def handleEntryPointError (env : Env) (st : St) (projectPath featureId errMsg : String) : St :=
  let st := (writeToContextFile env st (errorBlock errMsg)).2
  let st := (updateFeatureStatus env st featureId .waiting_approval (some errMsg)).2
  emitEvent st (.auto_mode_error projectPath errMsg featureId)

/-- Result value of runFeature, verifyFeature and resumeFeature. -/
structure RunResult where
  success : Bool
  passes : Bool
deriving DecidableEq, Repr

/-- Try-block of runFeature: load, resolve worktree, mark in_progress, run
the engine, interpret the result and persist the final status. -/
def runFeatureBody (env : Env) (st : St) (projectPath featureId : String)
    (useWorktrees : Bool) : Except String RunResult × St :=
  match loadFeatures env st with
  | (.error e, st) => (.error e, st)
  | (.ok features, st) =>
    match features.find? (fun f => f.id == featureId) with
    | none => (.error ("Feature " ++ featureId ++ " not found"), st)
    | some feature =>
      match setupWorktreeForFeature env st feature projectPath useWorktrees with
      | (.error e, st) => (.error e, st)
      | (.ok worktreeSetup, st) =>
        let st := updateExecutionInfo st featureId (some worktreeSetup.workPath) worktreeSetup.branchName
        match updateFeatureStatus env st featureId .in_progress none with
        | (.error e, st) => (.error e, st)
        | (.ok _, st) =>
          let st := emitEvent st (.feature_start projectPath feature.id)
          match implementFeature env st with
          | (.error e, st) => (.error e, st)
          | (.ok result, st) =>
            let newStatus :=
              if result.passes then
                if feature.skipTests then Status.waiting_approval else Status.verified
              else Status.waiting_approval
            match updateFeatureStatus env st feature.id newStatus none with
            | (.error e, st) => (.error e, st)
            | (.ok _, st) =>
              let st := emitEvent st (.feature_complete projectPath feature.id result.passes result.message)
              (.ok { success := true, passes := result.passes }, st)

/-- runFeature: rejects an id already in the registry, otherwise registers
an execution, runs the try-block, routes exceptions through the shared
catch handler (re-raising them) and releases the registry entry in the
finally block. -/
def runFeature (env : Env) (st : St) (projectPath featureId : String)
    (useWorktrees : Bool) : Except String RunResult × St :=
  if mapHas st.runningFeatures featureId then
    (.error ("Feature " ++ featureId ++ " is already running"), st)
  else
    let execution := { createExecutionContext with projectPath := projectPath }
    let st := { st with runningFeatures := mapSet st.runningFeatures featureId execution }
    match runFeatureBody env st projectPath featureId useWorktrees with
    | (.ok r, st) => (.ok r, { st with runningFeatures := mapDelete st.runningFeatures featureId })
    | (.error e, st) =>
      let st := handleEntryPointError env st projectPath featureId e
      (.error e, { st with runningFeatures := mapDelete st.runningFeatures featureId })

/-- Try-block of verifyFeature: load, emit start, run the verification
engine call, move to verified on success and back to in_progress on
failure. -/
def verifyFeatureBody (env : Env) (st : St) (projectPath featureId : String) :
    Except String RunResult × St :=
  match loadFeatures env st with
  | (.error e, st) => (.error e, st)
  | (.ok features, st) =>
    match features.find? (fun f => f.id == featureId) with
    | none => (.error ("Feature " ++ featureId ++ " not found"), st)
    | some feature =>
      let st := emitEvent st (.feature_start projectPath feature.id)
      match verifyFeatureTests env st with
      | (.error e, st) => (.error e, st)
      | (.ok result, st) =>
        let newStatus := if result.passes then Status.verified else Status.in_progress
        match updateFeatureStatus env st featureId newStatus none with
        | (.error e, st) => (.error e, st)
        | (.ok _, st) =>
          let st := emitEvent st (.feature_complete projectPath feature.id result.passes result.message)
          (.ok { success := true, passes := result.passes }, st)

/-- verifyFeature: same envelope as runFeature around the verification
try-block. -/
def verifyFeature (env : Env) (st : St) (projectPath featureId : String) :
    Except String RunResult × St :=
  if mapHas st.runningFeatures featureId then
    (.error ("Feature " ++ featureId ++ " is already running"), st)
  else
    let execution := { createExecutionContext with projectPath := projectPath }
    let st := { st with runningFeatures := mapSet st.runningFeatures featureId execution }
    match verifyFeatureBody env st projectPath featureId with
    | (.ok r, st) => (.ok r, { st with runningFeatures := mapDelete st.runningFeatures featureId })
    | (.error e, st) =>
      let st := handleEntryPointError env st projectPath featureId e
      (.error e, { st with runningFeatures := mapDelete st.runningFeatures featureId })

/-- Marker appended to the transcript before retry number attempts. -/
def retryMarker (attempts : Nat) : String :=
  "\n\nAuto-retry #" ++ toString attempts ++ " - Continuing implementation...\n\n"

/-- Content of the progress event emitted before retry number attempts. -/
def retryProgressContent (attempts : Nat) : String :=
  "\nAuto-retry #" ++ toString attempts ++ " - Agent ended early, continuing...\n"

/-- Auto-retry loop of resumeFeature: while the last result does not pass
and fewer than maxAttempts retries were made, reload the feature, and if
its status is still in_progress append a retry marker, emit a progress
event, re-read the transcript and re-invoke the engine.  The fuel argument
remaining equals maxAttempts minus attempts. -/
def resumeRetryLoop (env : Env) (st : St) (projectPath featureId : String)
    (attempts remaining : Nat) (finalResult : ImplResult) : Except String ImplResult × St :=
  match remaining with
  | 0 => (.ok finalResult, st)
  | r + 1 =>
    if finalResult.passes then (.ok finalResult, st)
    else
      match loadFeatures env st with
      | (.error e, st) => (.error e, st)
      | (.ok updatedFeatures, st) =>
        match updatedFeatures.find? (fun f => f.id == featureId) with
        | some updatedFeature =>
          if updatedFeature.status == Status.in_progress then
            let attempts := attempts + 1
            match writeToContextFile env st (retryMarker attempts) with
            | (.error e, st) => (.error e, st)
            | (.ok _, st) =>
              let st := emitEvent st (.progress projectPath featureId (retryProgressContent attempts))
              match readContextFile env st with
              | (.error e, st) => (.error e, st)
              | (.ok _, st) =>
                match resumeFeatureWithContext env st with
                | (.error e, st) => (.error e, st)
                | (.ok fr, st) => resumeRetryLoop env st projectPath featureId attempts r fr
          else (.ok finalResult, st)
        | none => (.ok finalResult, st)

/-- Try-block of resumeFeature: load, emit start, read the transcript,
invoke the engine with it, run the bounded auto-retry loop, then persist
the final status under the shared interpretation policy. -/
def resumeFeatureBody (env : Env) (st : St) (projectPath featureId : String) :
    Except String RunResult × St :=
  match loadFeatures env st with
  | (.error e, st) => (.error e, st)
  | (.ok features, st) =>
    match features.find? (fun f => f.id == featureId) with
    | none => (.error ("Feature " ++ featureId ++ " not found"), st)
    | some feature =>
      let st := emitEvent st (.feature_start projectPath feature.id)
      match readContextFile env st with
      | (.error e, st) => (.error e, st)
      | (.ok _previousContext, st) =>
        match resumeFeatureWithContext env st with
        | (.error e, st) => (.error e, st)
        | (.ok result, st) =>
          match resumeRetryLoop env st projectPath featureId 0 3 result with
          | (.error e, st) => (.error e, st)
          | (.ok finalResult, st) =>
            let newStatus :=
              if finalResult.passes then
                if feature.skipTests then Status.waiting_approval else Status.verified
              else Status.waiting_approval
            match updateFeatureStatus env st featureId newStatus none with
            | (.error e, st) => (.error e, st)
            | (.ok _, st) =>
              let st := emitEvent st (.feature_complete projectPath feature.id finalResult.passes finalResult.message)
              (.ok { success := true, passes := finalResult.passes }, st)

/-- resumeFeature: same envelope as runFeature around the resume try-block
with its bounded auto-retry loop. -/
def resumeFeature (env : Env) (st : St) (projectPath featureId : String) :
    Except String RunResult × St :=
  if mapHas st.runningFeatures featureId then
    (.error ("Feature " ++ featureId ++ " is already running"), st)
  else
    let execution := { createExecutionContext with projectPath := projectPath }
    let st := { st with runningFeatures := mapSet st.runningFeatures featureId execution }
    match resumeFeatureBody env st projectPath featureId with
    | (.ok r, st) => (.ok r, { st with runningFeatures := mapDelete st.runningFeatures featureId })
    | (.error e, st) =>
      let st := handleEntryPointError env st projectPath featureId e
      (.error e, { st with runningFeatures := mapDelete st.runningFeatures featureId })

/-- Background work of followUpFeature (runFollowUpWork's try-block):
load, mark in_progress, emit start, read the transcript, append the
follow-up instructions, invoke the engine, persist the interpreted
status. -/
def runFollowUpWorkBody (env : Env) (st : St) (projectPath featureId prompt : String) :
    Except String Unit × St :=
  match loadFeatures env st with
  | (.error e, st) => (.error e, st)
  | (.ok features, st) =>
    match features.find? (fun f => f.id == featureId) with
    | none => (.error ("Feature " ++ featureId ++ " not found"), st)
    | some feature =>
      match updateFeatureStatus env st featureId .in_progress none with
      | (.error e, st) => (.error e, st)
      | (.ok _, st) =>
        let st := emitEvent st (.feature_start projectPath feature.id)
        match readContextFile env st with
        | (.error e, st) => (.error e, st)
        | (.ok _previousContext, st) =>
          match writeToContextFile env st ("\n\n## Follow-up Instructions\n\n" ++ prompt) with
          | (.error e, st) => (.error e, st)
          | (.ok _, st) =>
            match resumeFeatureWithContext env st with
            | (.error e, st) => (.error e, st)
            | (.ok result, st) =>
              let newStatus :=
                if result.passes then
                  if feature.skipTests then Status.waiting_approval else Status.verified
                else Status.waiting_approval
              match updateFeatureStatus env st feature.id newStatus none with
              | (.error e, st) => (.error e, st)
              | (.ok _, st) =>
                (.ok (), emitEvent st (.feature_complete projectPath feature.id result.passes result.message))

/-- runFollowUpWork: the background task spawned by followUpFeature; its
catch handler performs the shared error handling without re-raising, and
its finally block releases the registry entry. -/
def runFollowUpWork (env : Env) (st : St) (projectPath featureId prompt : String) : St :=
  match runFollowUpWorkBody env st projectPath featureId prompt with
  | (.ok _, st) => { st with runningFeatures := mapDelete st.runningFeatures featureId }
  | (.error e, st) =>
    let st := handleEntryPointError env st projectPath featureId e
    { st with runningFeatures := mapDelete st.runningFeatures featureId }

/-- Result of followUpFeature and commitFeature. -/
structure AckResult where
  success : Bool
deriving DecidableEq, Repr

/-- followUpFeature: rejects an id already in the registry, otherwise
registers the execution and hands off to the background worker (the source
returns success to its caller before the background work completes; the
model's returned state is the state after that background work has run). -/
def followUpFeature (env : Env) (st : St) (projectPath featureId prompt : String) :
    Except String AckResult × St :=
  if mapHas st.runningFeatures featureId then
    (.error ("Feature " ++ featureId ++ " is already running"), st)
  else
    let execution := { createExecutionContext with projectPath := projectPath }
    let st := { st with runningFeatures := mapSet st.runningFeatures featureId execution }
    let st := runFollowUpWork env st projectPath featureId prompt
    (.ok { success := true }, st)

/-- Try-block of commitFeature: load, emit start and phase events, run the
commit-only engine call, set status to verified. -/
def commitFeatureBody (env : Env) (st : St) (projectPath featureId : String) :
    Except String AckResult × St :=
  match loadFeatures env st with
  | (.error e, st) => (.error e, st)
  | (.ok features, st) =>
    match features.find? (fun f => f.id == featureId) with
    | none => (.error ("Feature " ++ featureId ++ " not found"), st)
    | some feature =>
      let st := emitEvent st (.feature_start projectPath feature.id)
      let st := emitEvent st (.phase projectPath featureId "action" "Committing changes to git...")
      match commitChangesOnly env st with
      | (.error e, st) => (.error e, st)
      | (.ok _, st) =>
        match updateFeatureStatus env st featureId .verified none with
        | (.error e, st) => (.error e, st)
        | (.ok _, st) =>
          let st := emitEvent st (.feature_complete projectPath feature.id true "Changes committed successfully")
          (.ok { success := true }, st)

/-- commitFeature: registers the id in the registry WITHOUT a prior
already-running check (unlike the other entry points), runs the commit
try-block; its catch block only emits an auto_mode_error event and
re-raises, and the finally block releases the registry entry. -/
def commitFeature (env : Env) (st : St) (projectPath featureId : String) :
    Except String AckResult × St :=
  let execution := { createExecutionContext with projectPath := projectPath }
  let st := { st with runningFeatures := mapSet st.runningFeatures featureId execution }
  match commitFeatureBody env st projectPath featureId with
  | (.ok r, st) => (.ok r, { st with runningFeatures := mapDelete st.runningFeatures featureId })
  | (.error e, st) =>
    let st := emitEvent st (.auto_mode_error projectPath e featureId)
    (.error e, { st with runningFeatures := mapDelete st.runningFeatures featureId })

/-- Poll step checkAndStartFeaturesForProject: returns the list of backlog
features handed to startFeatureAsync without awaiting (the fire-and-forget
calls are represented by the returned list; the poll step itself performs
no other work) together with the state after the step's own reads.  When
the loop state is missing or not running, when no slot is free, or when the
backlog is empty, no feature is started. -/
def checkAndStartFeaturesForProject (env : Env) (st : St) (projectPath : String) :
    List Feature × St :=
  match mapGet st.projectLoops projectPath with
  | none => ([], st)
  | some projectState =>
    if !projectState.isRunning then ([], st)
    else
      let currentRunningCount := getRunningCountForProject st projectPath
      let availableSlots : Int := projectState.maxConcurrency - (currentRunningCount : Int)
      if availableSlots ≤ 0 then ([], st)
      else
        match loadFeatures env st with
        | (.error _, st) => ([], st)
        | (.ok features, st) =>
          let backlogFeatures := features.filter (fun f => f.status == Status.backlog)
          if backlogFeatures.length == 0 then ([], st)
          else
            let featuresToStart := backlogFeatures.take availableSlots.toNat
            (featuresToStart, st)

/-- Try-block of startFeatureAsync after registration: resolve worktree,
mark in_progress, run the engine, interpret and persist the result. -/
def startFeatureAsyncBody (env : Env) (st : St) (feature : Feature) (projectPath : String)
    (useWorktrees : Bool) : Except String Unit × St :=
  match setupWorktreeForFeature env st feature projectPath useWorktrees with
  | (.error e, st) => (.error e, st)
  | (.ok worktreeSetup, st) =>
    let st := updateExecutionInfo st feature.id (some worktreeSetup.workPath) worktreeSetup.branchName
    match updateFeatureStatus env st feature.id .in_progress none with
    | (.error e, st) => (.error e, st)
    | (.ok _, st) =>
      let st := emitEvent st (.feature_start projectPath feature.id)
      match implementFeature env st with
      | (.error e, st) => (.error e, st)
      | (.ok result, st) =>
        let newStatus :=
          if result.passes then
            if feature.skipTests then Status.waiting_approval else Status.verified
          else Status.waiting_approval
        match updateFeatureStatus env st feature.id newStatus none with
        | (.error e, st) => (.error e, st)
        | (.ok _, st) =>
          (.ok (), emitEvent st (.feature_complete projectPath feature.id result.passes result.message))

/-- startFeatureAsync: skips an id already in the registry, otherwise
registers and runs the feature; its catch handler performs the shared error
handling without re-raising, and the finally block releases the entry. -/
def startFeatureAsync (env : Env) (st : St) (feature : Feature) (projectPath : String)
    (useWorktrees : Bool) : St :=
  if mapHas st.runningFeatures feature.id then st
  else
    let execution := { createExecutionContext with projectPath := projectPath }
    let st := { st with runningFeatures := mapSet st.runningFeatures feature.id execution }
    match startFeatureAsyncBody env st feature projectPath useWorktrees with
    | (.ok _, st) => { st with runningFeatures := mapDelete st.runningFeatures feature.id }
    | (.error e, st) =>
      let st := handleEntryPointError env st projectPath feature.id e
      { st with runningFeatures := mapDelete st.runningFeatures feature.id }

/-- Result of revertFeature. -/
structure RevertResult where
  success : Bool
  removedPath : Option String
  error : Option String
deriving DecidableEq, Repr

/-- Portion of revertFeature's try-block after the stop-if-active step:
remove the worktree (aborting on reported failure), then clear the binding,
reset the status to backlog and delete the transcript. -/
def revertWorktreeAndReset (env : Env) (st : St) (projectPath featureId : String) :
    Except String RevertResult × St :=
  match env.removeWorktree with
  | .error e => (.error e, st)
  | .ok result =>
    if !result.success then
      (.error (if result.error == "" then "Failed to remove worktree" else result.error), st)
    else
      match updateFeatureWorktree env st featureId none none with
      | (.error e, st) => (.error e, st)
      | (.ok _, st) =>
        match updateFeatureStatus env st featureId .backlog none with
        | (.error e, st) => (.error e, st)
        | (.ok _, st) =>
          match deleteContextFile env st with
          | (.error e, st) => (.error e, st)
          | (.ok _, st) =>
            let st := emitEvent st (.feature_complete projectPath featureId false "Feature reverted - all changes discarded")
            (.ok { success := true, removedPath := some result.removedPath, error := none }, st)

/-- revertFeature: stops the feature first when it is active, then removes
the worktree and resets the item; every failure is caught and surfaced as a
success-false result after an auto_mode_error event. -/
def revertFeature (env : Env) (st : St) (projectPath featureId : String) :
    Except String RevertResult × St :=
  let st := if mapHas st.runningFeatures featureId then (stopFeature st featureId).2 else st
  match revertWorktreeAndReset env st projectPath featureId with
  | (.ok r, st) => (.ok r, st)
  | (.error e, st) =>
    let st := emitEvent st (.auto_mode_error projectPath e featureId)
    (.ok { success := false, removedPath := none, error := some e }, st)

/-- Result of mergeFeature. -/
structure MergeResult where
  success : Bool
  mergedBranch : Option String
  error : Option String
deriving DecidableEq, Repr

/-- Try-block of mergeFeature: load, emit progress, merge the worktree
(aborting on reported failure), clear the binding and set status to
verified. -/
def mergeFeatureBody (env : Env) (st : St) (projectPath featureId : String) :
    Except String MergeResult × St :=
  match loadFeatures env st with
  | (.error e, st) => (.error e, st)
  | (.ok features, st) =>
    match features.find? (fun f => f.id == featureId) with
    | none => (.error ("Feature " ++ featureId ++ " not found"), st)
    | some _feature =>
      let st := emitEvent st (.progress projectPath featureId "Merging feature branch into main...\n")
      match env.mergeWorktree with
      | .error e => (.error e, st)
      | .ok result =>
        if !result.success then
          (.error (if result.error == "" then "Failed to merge worktree" else result.error), st)
        else
          match updateFeatureWorktree env st featureId none none with
          | (.error e, st) => (.error e, st)
          | (.ok _, st) =>
            match updateFeatureStatus env st featureId .verified none with
            | (.error e, st) => (.error e, st)
            | (.ok _, st) =>
              let st := emitEvent st (.feature_complete projectPath featureId true ("Feature merged into " ++ result.intoBranch))
              (.ok { success := true, mergedBranch := some result.mergedBranch, error := none }, st)

/-- mergeFeature: every failure in the try-block is caught and surfaced as
a success-false result after an auto_mode_error event. -/
def mergeFeature (env : Env) (st : St) (projectPath featureId : String) :
    Except String MergeResult × St :=
  match mergeFeatureBody env st projectPath featureId with
  | (.ok r, st) => (.ok r, st)
  | (.error e, st) =>
    let st := emitEvent st (.auto_mode_error projectPath e featureId)
    (.ok { success := false, mergedBranch := none, error := some e }, st)

/-- Persisted status of the feature with the given id, as observed through
the store. -/
def featStatus (fs : List Feature) (featureId : String) : Option Status :=
  (fs.find? (fun f => f.id == featureId)).map (fun f => f.status)

/-- Persisted error message of the feature with the given id. -/
def featError (fs : List Feature) (featureId : String) : Option (Option String) :=
  (fs.find? (fun f => f.id == featureId)).map (fun f => f.errorMessage)

/-- Status, skip-tests flag and error message of a feature: the components
worktree setup never touches. -/
def coreOf (f : Feature) : Status × Bool × Option String :=
  (f.status, f.skipTests, f.errorMessage)

/-! Concrete fixtures used by witnesses and counterexamples. -/

/-- Environment in which every collaborator call succeeds. -/
def happyEnv : Env where
  loadOutcome := fun _ => .ok ()
  statusOutcome := fun _ => .ok ()
  worktreeUpdateOutcome := fun _ => .ok ()
  writeCtxOutcome := fun _ => .ok ()
  readCtxOutcome := fun _ => .ok ()
  deleteCtxOutcome := fun _ => .ok ()
  isGitRepo := .ok true
  createWorktree := .ok { success := true, worktreePath := "/wt", branchName := "feat-b", baseBranch := "main", error := "" }
  removeWorktree := .ok { success := true, removedPath := "/wt", error := "" }
  mergeWorktree := .ok { success := true, mergedBranch := "feat-b", intoBranch := "main", error := "" }
  implementOutcome := fun _ => .ok { passes := true, message := "done" }
  verifyOutcome := fun _ => .ok { passes := true, message := "ok" }
  resumeOutcome := fun _ => .ok { passes := false, message := "early" }
  resumeStore := fun _ => none
  commitOnlyOutcome := fun _ => .ok ()

/-- A backlog demo feature. -/
def feat1 : Feature :=
  { id := "f1", description := "demo", status := .backlog, skipTests := false,
    worktreePath := none, branchName := none, errorMessage := none }

/-- An in-progress demo feature. -/
def feat2 : Feature :=
  { feat1 with id := "f2", status := .in_progress }

/-- A registered demo execution with an attached abort controller. -/
def exec1 : Execution :=
  { projectPath := "/p", worktreePath := none, branchName := none, hasAbortController := true }

/-- A base world with one backlog feature and nothing running. -/
def st0 : St :=
  { runningFeatures := [], projectLoops := [], features := [feat1],
    transcript := some "ctx", events := [], abortSignals := [],
    loadCalls := 0, statusCalls := 0, worktreeUpdateCalls := 0, writeCtxCalls := 0,
    readCtxCalls := 0, deleteCtxCalls := 0, implementCalls := 0, verifyCalls := 0,
    resumeCalls := 0, commitCalls := 0 }

/-- The base world with feature f1 registered as running. -/
def stBusy : St := { st0 with runningFeatures := [("f1", exec1)] }

/-- A running loop state for one project with concurrency cap 2. -/
def loop1 : LoopState :=
  { isRunning := true, hasInterval := true, hasAbortController := false,
    loopAborted := false, maxConcurrency := 2 }

/-- The busy world with a running auto loop recorded for the project. -/
def stLoop : St := { stBusy with projectLoops := [("/p", loop1)] }

/-! Helper lemmas about the JS-Map rendering and the store updates. -/

/-- Deleting a key removes it from the map. -/
theorem mapHas_mapDelete (m : List (String × α)) (k : String) :
    mapHas (mapDelete m k) k = false := by
  apply List.any_eq_false.mpr
  intro p hp
  have h := List.of_mem_filter hp
  simp only [bne_iff_ne, ne_eq] at h
  simp [h]

/-- An id-keyed rewrite of the feature list commutes with looking the id
up, provided the rewrite preserves ids. -/
theorem find?_updateById (fs : List Feature) (featureId : String) (g : Feature → Feature)
    (hg : ∀ f, (g f).id = f.id) :
    (fs.map (fun f => if f.id == featureId then g f else f)).find? (fun f => f.id == featureId) =
      (fs.find? (fun f => f.id == featureId)).map g := by
  induction fs with
  | nil => rfl
  | cons f t ih =>
    rw [List.map_cons]
    by_cases h : (f.id == featureId) = true
    · have hg' : ((g f).id == featureId) = true := by rw [hg]; exact h
      rw [if_pos h]
      simp only [List.find?, hg', h]
      rfl
    · have hb : (f.id == featureId) = false := by simpa using h
      rw [if_neg h]
      simp only [List.find?, hb]
      exact ih

/-- A status update rewrites exactly the status and error-message fields of
the feature looked up by id. -/
theorem find?_setFeatureStatus (fs : List Feature) (featureId : String) (s : Status)
    (err : Option String) :
    (setFeatureStatus fs featureId s err).find? (fun f => f.id == featureId) =
      (fs.find? (fun f => f.id == featureId)).map
        (fun f => { f with status := s, errorMessage := err }) :=
  find?_updateById fs featureId _ (fun _ => rfl)

/-- A worktree-binding update rewrites exactly the worktree fields of the
feature looked up by id. -/
theorem find?_setFeatureWorktree (fs : List Feature) (featureId : String)
    (wt br : Option String) :
    (setFeatureWorktree fs featureId wt br).find? (fun f => f.id == featureId) =
      (fs.find? (fun f => f.id == featureId)).map
        (fun f => { f with worktreePath := wt, branchName := br }) :=
  find?_updateById fs featureId _ (fun _ => rfl)

/-- Characterisation of stopFeature on a registered id: it succeeds and the
resulting state differs only in the abort signals sent and the removal of
the registry entry. -/
theorem stopFeature_state_of_present (st : St) (featureId : String)
    (h : mapHas st.runningFeatures featureId = true) :
    ∃ sig, stopFeature st featureId =
      ({ success := true, error := none },
       { st with abortSignals := sig,
                 runningFeatures := mapDelete st.runningFeatures featureId }) := by
  unfold stopFeature
  rw [h]
  cases hG : mapGet st.runningFeatures featureId with
  | none => exact ⟨st.abortSignals, by simp⟩
  | some e =>
    cases hAC : e.hasAbortController
    · exact ⟨st.abortSignals, by simp [hAC]⟩
    · exact ⟨st.abortSignals ++ [featureId], by simp [hAC]⟩

/-- Abort-signal effect of stopFeature on a registered id: the abort
controller of the looked-up execution is invoked exactly when one is
attached, recorded as a signal for that feature id. -/
theorem stopFeature_aborts_controller (st : St) (featureId : String) (e : Execution)
    (h : mapHas st.runningFeatures featureId = true)
    (hG : mapGet st.runningFeatures featureId = some e) :
    (stopFeature st featureId).2.abortSignals =
      (if e.hasAbortController then st.abortSignals ++ [featureId] else st.abortSignals) := by
  unfold stopFeature
  rw [h, hG]
  cases hAC : e.hasAbortController <;> simp [hAC]

/-- C6: stop on a project with recorded loop state sets its isRunning flag
to false, clears the interval timer, aborts only the loop's own abort
controller, leaves the running-executions registry and every other state
component unchanged, and returns the count of executions still running for
that project; on a project with no recorded loop state it returns success
with a running count of zero and changes nothing. -/
theorem stop_stops_loop_only (st : St) (projectPath : String) :
    (mapGet st.projectLoops projectPath = none →
       stop st projectPath = ({ success := true, runningFeatures := 0 }, st)) ∧
    (∀ ps, mapGet st.projectLoops projectPath = some ps →
       stop st projectPath =
         ({ success := true, runningFeatures := getRunningCountForProject st projectPath },
          { st with projectLoops := (mapSet st.projectLoops projectPath
              { isRunning := false, hasInterval := false, hasAbortController := false,
                loopAborted := ps.loopAborted || ps.hasAbortController,
                maxConcurrency := ps.maxConcurrency }) })) := by
  constructor
  · intro h
    unfold stop
    rw [h]
  · intro ps h
    unfold stop
    rw [h]
    cases hI : ps.hasInterval <;> cases hA : ps.hasAbortController <;>
      simp [hI, hA, getRunningCountForProject]

/-- Witness for the stop theorem: a concrete run on a project with a
recorded running loop and one registered execution, and a concrete run on a
project with no recorded loop state. -/
theorem stop_stops_loop_only_witness :
    stop stLoop "/p" =
      ({ success := true, runningFeatures := 1 },
       { stLoop with projectLoops := (mapSet stLoop.projectLoops "/p"
           { isRunning := false, hasInterval := false, hasAbortController := false,
             loopAborted := false, maxConcurrency := 2 }) }) ∧
    stop st0 "/q" = ({ success := true, runningFeatures := 0 }, st0) := by
  refine ⟨?_, (stop_stops_loop_only st0 "/q").1 (by rfl)⟩
  have h := (stop_stops_loop_only stLoop "/p").2 loop1 (by rfl)
  rw [h]
  rfl

/-- C8: stopFeature on an id absent from the registry returns a typed
not-running failure without throwing or changing the state; on a present id
it invokes the execution's abort controller (whenever one is attached, an
abort signal for that id is recorded) and removes the registry entry
immediately, touching no other observable component and performing no
engine interaction — so a second call straight after returns the typed
not-running failure rather than an exception. -/
theorem stopFeature_typed_and_idempotent (st : St) (featureId : String) :
    (mapHas st.runningFeatures featureId = false →
       stopFeature st featureId =
         ({ success := false, error := some ("Feature " ++ featureId ++ " is not running") }, st)) ∧
    (mapHas st.runningFeatures featureId = true →
       (stopFeature st featureId).1 = { success := true, error := none } ∧
       (stopFeature st featureId).2.runningFeatures = mapDelete st.runningFeatures featureId ∧
       mapHas (stopFeature st featureId).2.runningFeatures featureId = false ∧
       (stopFeature st featureId).2.features = st.features ∧
       (stopFeature st featureId).2.events = st.events ∧
       (stopFeature st featureId).2.transcript = st.transcript ∧
       (stopFeature st featureId).2.implementCalls = st.implementCalls ∧
       (stopFeature st featureId).2.verifyCalls = st.verifyCalls ∧
       (stopFeature st featureId).2.resumeCalls = st.resumeCalls ∧
       (stopFeature st featureId).2.commitCalls = st.commitCalls ∧
       (stopFeature (stopFeature st featureId).2 featureId).1 =
         { success := false, error := some ("Feature " ++ featureId ++ " is not running") } ∧
       (∀ e, mapGet st.runningFeatures featureId = some e →
          (stopFeature st featureId).2.abortSignals =
            (if e.hasAbortController then st.abortSignals ++ [featureId]
             else st.abortSignals))) := by
  have hdel := mapHas_mapDelete st.runningFeatures featureId
  constructor
  · intro h
    unfold stopFeature
    simp [h]
  · intro h
    obtain ⟨sig, hkey⟩ := stopFeature_state_of_present st featureId h
    refine ⟨?_, ?_, ?_, ?_, ?_, ?_, ?_, ?_, ?_, ?_, ?_, ?_⟩
    · rw [hkey]
    · rw [hkey]
    · rw [hkey]; exact hdel
    · rw [hkey]
    · rw [hkey]
    · rw [hkey]
    · rw [hkey]
    · rw [hkey]
    · rw [hkey]
    · rw [hkey]
    · rw [hkey]
      unfold stopFeature
      simp [hdel]
    · intro e hG
      exact stopFeature_aborts_controller st featureId e h hG

/-- Witness for the stopFeature theorem: stopping the concrete registered
feature (whose execution has an abort controller attached) succeeds,
records the abort signal for it, and removes it, and the immediate second
stop returns the typed not-running failure. -/
theorem stopFeature_typed_and_idempotent_witness :
    mapHas stBusy.runningFeatures "f1" = true ∧
    (stopFeature stBusy "f1").1 = { success := true, error := none } ∧
    (stopFeature stBusy "f1").2.abortSignals =
      (if exec1.hasAbortController then stBusy.abortSignals ++ ["f1"]
       else stBusy.abortSignals) ∧
    (stopFeature (stopFeature stBusy "f1").2 "f1").1 =
      { success := false, error := some ("Feature " ++ "f1" ++ " is not running") } ∧
    stopFeature st0 "f9" =
      ({ success := false, error := some ("Feature " ++ "f9" ++ " is not running") }, st0) := by
  have h := (stopFeature_typed_and_idempotent stBusy "f1").2 (by rfl)
  exact ⟨by rfl, h.1, h.2.2.2.2.2.2.2.2.2.2.2 exec1 (by rfl),
         h.2.2.2.2.2.2.2.2.2.2.1,
         (stopFeature_typed_and_idempotent st0 "f9").1 (by rfl)⟩

/-- C1 (amended): for a feature id already present in the
running-executions registry, runFeature, verifyFeature, resumeFeature and
followUpFeature reject the call with an already-running error and leave the
whole state (in particular the registry) unchanged; commitFeature performs
no such check and registers unconditionally. -/
theorem alreadyRunning_rejected_by_registering_entry_points (env : Env) (st : St)
    (projectPath featureId prompt : String) (useWorktrees : Bool)
    (h : mapHas st.runningFeatures featureId = true) :
    runFeature env st projectPath featureId useWorktrees =
      (.error ("Feature " ++ featureId ++ " is already running"), st) ∧
    verifyFeature env st projectPath featureId =
      (.error ("Feature " ++ featureId ++ " is already running"), st) ∧
    resumeFeature env st projectPath featureId =
      (.error ("Feature " ++ featureId ++ " is already running"), st) ∧
    followUpFeature env st projectPath featureId prompt =
      (.error ("Feature " ++ featureId ++ " is already running"), st) := by
  unfold runFeature verifyFeature resumeFeature followUpFeature
  simp [h]

/-- Witness for the already-running rejection theorem at the concrete busy
state. -/
theorem alreadyRunning_rejected_witness :
    mapHas stBusy.runningFeatures "f1" = true ∧
    runFeature happyEnv stBusy "/p" "f1" false =
      (.error ("Feature " ++ "f1" ++ " is already running"), stBusy) ∧
    followUpFeature happyEnv stBusy "/p" "f1" "more" =
      (.error ("Feature " ++ "f1" ++ " is already running"), stBusy) := by
  have h := alreadyRunning_rejected_by_registering_entry_points happyEnv stBusy
    "/p" "f1" "more" false (by rfl)
  exact ⟨by rfl, h.1, h.2.2.2⟩

/-- C1 (counterexample): with feature f1 already present in the registry,
commitFeature does not reject the call with an already-running error and
does not leave the registry unchanged: the commit proceeds, returns
success, and the finally block removes the pre-existing registry entry. -/
theorem commitFeature_ignores_running_registry :
    mapHas stBusy.runningFeatures "f1" = true ∧
    (commitFeature happyEnv stBusy "/p" "f1").1 = .ok { success := true } ∧
    (commitFeature happyEnv stBusy "/p" "f1").2.runningFeatures = [] ∧
    (commitFeature happyEnv stBusy "/p" "f1").2.runningFeatures ≠ stBusy.runningFeatures := by
  refine ⟨by rfl, by rfl, by rfl, ?_⟩
  intro hcontra
  have h0 : (commitFeature happyEnv stBusy "/p" "f1").2.runningFeatures = [] := rfl
  rw [h0] at hcontra
  exact List.cons_ne_nil _ _ hcontra.symm

/-- C2: the poll step on a project with a running loop computes
availableSlots as maxConcurrency minus the count of running executions for
that project; when no slot is free it returns immediately with no side
effects, when the backlog is empty it returns after the read with no other
side effect, and otherwise it hands exactly min(availableSlots, number of
backlog features) features to startFeatureAsync without awaiting them, the
first-listed backlog features in the store's order, with no other side
effect. -/
theorem checkAndStart_poll_step (env : Env) (st : St) (projectPath : String) (ps : LoopState)
    (hps : mapGet st.projectLoops projectPath = some ps)
    (hrun : ps.isRunning = true)
    (hload : env.loadOutcome st.loadCalls = .ok ()) :
    (ps.maxConcurrency - (getRunningCountForProject st projectPath : Int) ≤ 0 →
       checkAndStartFeaturesForProject env st projectPath = ([], st)) ∧
    (0 < ps.maxConcurrency - (getRunningCountForProject st projectPath : Int) →
       st.features.filter (fun f => f.status == Status.backlog) = [] →
       checkAndStartFeaturesForProject env st projectPath =
         ([], { st with loadCalls := st.loadCalls + 1 })) ∧
    (∀ backlog, backlog = st.features.filter (fun f => f.status == Status.backlog) →
       0 < ps.maxConcurrency - (getRunningCountForProject st projectPath : Int) →
       backlog ≠ [] →
       checkAndStartFeaturesForProject env st projectPath =
         (backlog.take (ps.maxConcurrency - (getRunningCountForProject st projectPath : Int)).toNat,
          { st with loadCalls := st.loadCalls + 1 }) ∧
       (checkAndStartFeaturesForProject env st projectPath).1.length =
         min (ps.maxConcurrency - (getRunningCountForProject st projectPath : Int)).toNat
           backlog.length) := by
  refine ⟨?_, ?_, ?_⟩
  · intro hle
    simp only [checkAndStartFeaturesForProject, hps, hrun, Bool.not_true, Bool.false_eq_true,
      if_false, if_pos hle]
  · intro hpos hempty
    simp only [checkAndStartFeaturesForProject, hps, hrun, Bool.not_true, Bool.false_eq_true,
      if_false, if_neg (not_le.mpr hpos), loadFeatures, hload, hempty]
    simp
  · intro backlog hb hpos hne
    subst hb
    have hlen : ((st.features.filter (fun f => f.status == Status.backlog)).length == 0) = false := by
      simp [List.length_eq_zero, hne]
    constructor
    · simp only [checkAndStartFeaturesForProject, hps, hrun, Bool.not_true, Bool.false_eq_true,
        if_false, if_neg (not_le.mpr hpos), loadFeatures, hload, hlen]
    · simp only [checkAndStartFeaturesForProject, hps, hrun, Bool.not_true, Bool.false_eq_true,
        if_false, if_neg (not_le.mpr hpos), loadFeatures, hload, hlen]
      simp [List.length_take]

/-- Witness for the poll-step theorem: with concurrency cap 2, one running
execution and one backlog feature, the poll starts exactly that feature. -/
theorem checkAndStart_poll_step_witness :
    checkAndStartFeaturesForProject happyEnv stLoop "/p" =
      ([feat1], { stLoop with loadCalls := stLoop.loadCalls + 1 }) ∧
    (checkAndStartFeaturesForProject happyEnv stLoop "/p").1.length = 1 := by
  have h := (checkAndStart_poll_step happyEnv stLoop "/p" loop1 (by rfl) (by rfl)
    (by rfl)).2.2 [feat1] (by rfl) (by decide) (by decide)
  refine ⟨?_, ?_⟩
  · rw [h.1]
    decide
  · rw [h.2]
    decide

/-- C9: setupWorktreeForFeature returns the non-isolated fallback
(useWorktree false, workPath = projectPath) whenever the use-worktrees flag
is off — regardless of git-repo status or any other collaborator behaviour
— or the project is not a git repository; when createWorktree reports
failure it emits a warning progress event and returns the same fallback
instead of throwing; only on createWorktree success does it persist the
(worktreePath, branchName) binding onto the feature and return the
isolated path. -/
theorem setupWorktree_policy (env : Env) (st : St) (feature : Feature) (projectPath : String) :
    (setupWorktreeForFeature env st feature projectPath false =
       (.ok { useWorktree := false, workPath := projectPath, branchName := none, baseBranch := none }, st)) ∧
    (env.isGitRepo = .ok false →
       setupWorktreeForFeature env st feature projectPath true =
         (.ok { useWorktree := false, workPath := projectPath, branchName := none, baseBranch := none }, st)) ∧
    (∀ cw, env.isGitRepo = .ok true → env.createWorktree = .ok cw → cw.success = false →
       setupWorktreeForFeature env st feature projectPath true =
         (.ok { useWorktree := false, workPath := projectPath, branchName := none, baseBranch := none },
          emitEvent
            (emitEvent st (.progress projectPath feature.id "Creating isolated worktree for feature...\n"))
            (.progress projectPath feature.id
              ("Warning: Could not create worktree (" ++ cw.error ++ "). Working directly on main project.\n")))) ∧
    (∀ cw, env.isGitRepo = .ok true → env.createWorktree = .ok cw → cw.success = true →
       env.worktreeUpdateOutcome st.worktreeUpdateCalls = .ok () →
       (setupWorktreeForFeature env st feature projectPath true).1 =
         .ok { useWorktree := true, workPath := cw.worktreePath,
               branchName := some cw.branchName, baseBranch := some cw.baseBranch } ∧
       (setupWorktreeForFeature env st feature projectPath true).2.features =
         setFeatureWorktree st.features feature.id (some cw.worktreePath) (some cw.branchName)) := by
  refine ⟨rfl, ?_, ?_, ?_⟩
  · intro h
    simp [setupWorktreeForFeature, h]
  · intro cw hgit hcw hfail
    simp [setupWorktreeForFeature, hgit, hcw, hfail]
  · intro cw hgit hcw hsucc hupd
    constructor
    · simp [setupWorktreeForFeature, hgit, hcw, hsucc, updateFeatureWorktree, emitEvent, hupd]
    · simp [setupWorktreeForFeature, hgit, hcw, hsucc, updateFeatureWorktree, emitEvent, hupd]

/-- Witness for the worktree-setup policy: concrete disabled-flag fallback
and concrete successful isolated setup. -/
theorem setupWorktree_policy_witness :
    setupWorktreeForFeature happyEnv st0 feat1 "/p" false =
      (.ok { useWorktree := false, workPath := "/p", branchName := none, baseBranch := none }, st0) ∧
    (setupWorktreeForFeature happyEnv st0 feat1 "/p" true).1 =
      .ok { useWorktree := true, workPath := "/wt", branchName := some "feat-b",
            baseBranch := some "main" } := by
  have h4 := (setupWorktree_policy happyEnv st0 feat1 "/p").2.2.2
    { success := true, worktreePath := "/wt", branchName := "feat-b", baseBranch := "main", error := "" }
    rfl rfl rfl rfl
  exact ⟨(setupWorktree_policy happyEnv st0 feat1 "/p").1, h4.1⟩

/-- Environment whose loader throws on every call, used to observe which
entry points re-raise collaborator exceptions. -/
def throwLoadEnv : Env := { happyEnv with loadOutcome := fun _ => .error "boom" }

/-- C10: revertFeature and mergeFeature never propagate an exception to the
caller — for every collaborator behaviour they return an ok value, and any
failure inside the try-block surfaces as a success-false result carrying
the error message, with an auto_mode_error event emitted; by contrast
runFeature, verifyFeature, resumeFeature and commitFeature re-raise a
collaborator exception (shown on a loader that throws). -/
theorem revert_merge_catch_all (env : Env) (st : St) (projectPath featureId : String) :
    (∃ r st', revertFeature env st projectPath featureId = (.ok r, st')) ∧
    (∀ e st1,
       revertWorktreeAndReset env
           (if mapHas st.runningFeatures featureId then (stopFeature st featureId).2 else st)
           projectPath featureId = (.error e, st1) →
       revertFeature env st projectPath featureId =
         (.ok { success := false, removedPath := none, error := some e },
          emitEvent st1 (.auto_mode_error projectPath e featureId))) ∧
    (∃ r st', mergeFeature env st projectPath featureId = (.ok r, st')) ∧
    (∀ e st1, mergeFeatureBody env st projectPath featureId = (.error e, st1) →
       mergeFeature env st projectPath featureId =
         (.ok { success := false, mergedBranch := none, error := some e },
          emitEvent st1 (.auto_mode_error projectPath e featureId))) ∧
    (runFeature throwLoadEnv st0 "/p" "f1" false).1 = .error "boom" ∧
    (verifyFeature throwLoadEnv st0 "/p" "f1").1 = .error "boom" ∧
    (resumeFeature throwLoadEnv st0 "/p" "f1").1 = .error "boom" ∧
    (commitFeature throwLoadEnv st0 "/p" "f1").1 = .error "boom" := by
  refine ⟨?_, ?_, ?_, ?_, rfl, rfl, rfl, rfl⟩
  · cases hR : revertWorktreeAndReset env
        (if mapHas st.runningFeatures featureId then (stopFeature st featureId).2 else st)
        projectPath featureId with
    | mk res st1 =>
      cases res with
      | ok r => exact ⟨r, st1, by simp only [revertFeature]; rw [hR]⟩
      | error e => exact ⟨_, _, by simp only [revertFeature]; rw [hR]⟩
  · intro e st1 hR
    simp only [revertFeature]
    rw [hR]
  · cases hR : mergeFeatureBody env st projectPath featureId with
    | mk res st1 =>
      cases res with
      | ok r => exact ⟨r, st1, by simp only [mergeFeature]; rw [hR]⟩
      | error e => exact ⟨_, _, by simp only [mergeFeature]; rw [hR]⟩
  · intro e st1 hR
    simp only [mergeFeature]
    rw [hR]

/-- Environment where worktree removal and merge both report failure. -/
def failWorktreeEnv : Env :=
  { happyEnv with
    removeWorktree := .ok { success := false, removedPath := "", error := "rm failed" },
    mergeWorktree := .ok { success := false, mergedBranch := "", intoBranch := "", error := "mg failed" } }

/-- Intermediate state reached inside mergeFeature's try-block just before
the failing merge call on the concrete fixture. -/
def stMergeFail : St :=
  { st0 with loadCalls := 1,
             events := st0.events ++ [Event.progress "/p" "f1" "Merging feature branch into main...\n"] }

/-- Witness for the catch-all theorem: concrete failing removal and merge
are surfaced as success-false results with the error event emitted. -/
theorem revert_merge_catch_all_witness :
    revertFeature failWorktreeEnv st0 "/p" "f1" =
      (.ok { success := false, removedPath := none, error := some "rm failed" },
       emitEvent st0 (.auto_mode_error "/p" "rm failed" "f1")) ∧
    mergeFeature failWorktreeEnv st0 "/p" "f1" =
      (.ok { success := false, mergedBranch := none, error := some "mg failed" },
       emitEvent stMergeFail (.auto_mode_error "/p" "mg failed" "f1")) := by
  have h := revert_merge_catch_all failWorktreeEnv st0 "/p" "f1"
  refine ⟨?_, ?_⟩
  · exact h.2.1 "rm failed" st0 (by rfl)
  · exact h.2.2.2.1 "mg failed" _ (by rfl)

/-- C7: revertFeature on a currently active feature first stops it, so the
registry no longer contains its id in the state handed to worktree
removal; if removal throws or reports failure the operation aborts with
the feature list (hence worktree binding and status) and the transcript
unchanged; only on success does it clear the binding, reset the status to
backlog and delete the transcript. -/
theorem revertFeature_stop_first_and_atomic (env : Env) (st : St)
    (projectPath featureId : String)
    (hactive : mapHas st.runningFeatures featureId = true) :
    (mapHas ((stopFeature st featureId).2).runningFeatures featureId = false ∧
     revertFeature env st projectPath featureId =
       (match revertWorktreeAndReset env (stopFeature st featureId).2 projectPath featureId with
        | (.ok r, st') => (.ok r, st')
        | (.error e, st') =>
          (.ok { success := false, removedPath := none, error := some e },
           emitEvent st' (.auto_mode_error projectPath e featureId)))) ∧
    (∀ e, env.removeWorktree = .error e →
       (revertFeature env st projectPath featureId).1 =
         .ok { success := false, removedPath := none, error := some e } ∧
       (revertFeature env st projectPath featureId).2.features = st.features ∧
       (revertFeature env st projectPath featureId).2.transcript = st.transcript) ∧
    (∀ rmres, env.removeWorktree = .ok rmres → rmres.success = false →
       (∃ e, (revertFeature env st projectPath featureId).1 =
          .ok { success := false, removedPath := none, error := some e }) ∧
       (revertFeature env st projectPath featureId).2.features = st.features ∧
       (revertFeature env st projectPath featureId).2.transcript = st.transcript) ∧
    (∀ rmres, env.removeWorktree = .ok rmres → rmres.success = true →
       env.worktreeUpdateOutcome st.worktreeUpdateCalls = .ok () →
       env.statusOutcome st.statusCalls = .ok () →
       env.deleteCtxOutcome st.deleteCtxCalls = .ok () →
       (revertFeature env st projectPath featureId).1 =
         .ok { success := true, removedPath := some rmres.removedPath, error := none } ∧
       (revertFeature env st projectPath featureId).2.features =
         setFeatureStatus (setFeatureWorktree st.features featureId none none)
           featureId .backlog none ∧
       (revertFeature env st projectPath featureId).2.transcript = none) := by
  obtain ⟨sig, hstop⟩ := stopFeature_state_of_present st featureId hactive
  have hstS : (stopFeature st featureId).2 =
      { st with abortSignals := sig,
                runningFeatures := mapDelete st.runningFeatures featureId } := by
    rw [hstop]
  have hdel : mapHas ((stopFeature st featureId).2).runningFeatures featureId = false := by
    rw [hstS]
    exact mapHas_mapDelete _ _
  have hwrap : revertFeature env st projectPath featureId =
      (match revertWorktreeAndReset env (stopFeature st featureId).2 projectPath featureId with
       | (.ok r, st') => (.ok r, st')
       | (.error e, st') =>
         (.ok { success := false, removedPath := none, error := some e },
          emitEvent st' (.auto_mode_error projectPath e featureId))) := by
    simp [revertFeature, hactive]
  refine ⟨⟨hdel, hwrap⟩, ?_, ?_, ?_⟩
  · intro e hrm
    have hbody : revertWorktreeAndReset env (stopFeature st featureId).2 projectPath featureId =
        (.error e, (stopFeature st featureId).2) := by
      simp only [revertWorktreeAndReset, hrm]
    rw [hwrap, hbody, hstS]
    exact ⟨rfl, rfl, rfl⟩
  · intro rmres hrm hfail
    have hbody : revertWorktreeAndReset env (stopFeature st featureId).2 projectPath featureId =
        (.error (if rmres.error == "" then "Failed to remove worktree" else rmres.error),
         (stopFeature st featureId).2) := by
      simp only [revertWorktreeAndReset, hrm, hfail]
      simp
    rw [hwrap, hbody, hstS]
    exact ⟨⟨_, rfl⟩, rfl, rfl⟩
  · intro rmres hrm hsucc hwu hsu hdc
    have hbody : revertWorktreeAndReset env (stopFeature st featureId).2 projectPath featureId =
        (.ok { success := true, removedPath := some rmres.removedPath, error := none },
         { st with abortSignals := sig,
                   runningFeatures := mapDelete st.runningFeatures featureId,
                   features := setFeatureStatus (setFeatureWorktree st.features featureId none none)
                     featureId .backlog none,
                   transcript := none,
                   events := st.events ++ [Event.feature_complete projectPath featureId false
                     "Feature reverted - all changes discarded"],
                   worktreeUpdateCalls := st.worktreeUpdateCalls + 1,
                   statusCalls := st.statusCalls + 1,
                   deleteCtxCalls := st.deleteCtxCalls + 1 }) := by
      rw [hstS]
      simp only [revertWorktreeAndReset, hrm, hsucc, updateFeatureWorktree, updateFeatureStatus,
        deleteContextFile, emitEvent, hwu, hsu, hdc]
      simp
    rw [hwrap, hbody]
    exact ⟨rfl, rfl, rfl⟩

/-- Witness for the revert theorem: stopping and reverting the concrete
active feature removes it from the registry and, with a successful
removal, resets the item and deletes its transcript. -/
theorem revertFeature_stop_first_and_atomic_witness :
    mapHas stBusy.runningFeatures "f1" = true ∧
    mapHas ((stopFeature stBusy "f1").2).runningFeatures "f1" = false ∧
    (revertFeature happyEnv stBusy "/p" "f1").1 =
      .ok { success := true, removedPath := some "/wt", error := none } ∧
    (revertFeature happyEnv stBusy "/p" "f1").2.transcript = none := by
  have h := revertFeature_stop_first_and_atomic happyEnv stBusy "/p" "f1" (by rfl)
  have hd := h.2.2.2 { success := true, removedPath := "/wt", error := "" } rfl rfl rfl rfl rfl
  exact ⟨by rfl, h.1.1, hd.1, hd.2.2⟩

/-- C3: after an implementation attempt that completes without throwing,
runFeature persists exactly the policy status: waiting_approval when the
result passes and the feature's skip-tests flag is set, verified when the
result passes and tests were run, and waiting_approval — never backlog —
when the result does not pass. -/
theorem runFeature_result_interpretation (env : Env) (st : St)
    (projectPath featureId : String) (useWorktrees : Bool) (feature : Feature)
    (result : ImplResult) (g : Bool) (cw : CreateWorktreeResult)
    (hnr : mapHas st.runningFeatures featureId = false)
    (hload : ∀ n, env.loadOutcome n = .ok ())
    (hfind : st.features.find? (fun f => f.id == featureId) = some feature)
    (hgit : env.isGitRepo = .ok g)
    (hcw : env.createWorktree = .ok cw)
    (hwu : ∀ n, env.worktreeUpdateOutcome n = .ok ())
    (hsu : ∀ n, env.statusOutcome n = .ok ())
    (himpl : ∀ n, env.implementOutcome n = .ok result) :
    (runFeature env st projectPath featureId useWorktrees).1 =
      .ok { success := true, passes := result.passes } ∧
    featStatus (runFeature env st projectPath featureId useWorktrees).2.features featureId =
      some (if result.passes then
              (if feature.skipTests then Status.waiting_approval else Status.verified)
            else Status.waiting_approval) := by
  have hid : feature.id = featureId := by
    have h := List.find?_some hfind
    simpa using h
  cases g with
  | false =>
    cases useWorktrees <;>
      simp [runFeature, runFeatureBody, loadFeatures, setupWorktreeForFeature,
        updateExecutionInfo, updateFeatureStatus, implementFeature, emitEvent,
        updateFeatureWorktree, featStatus, hnr, hload, hfind, hgit, hwu, hsu, himpl, hid,
        find?_setFeatureStatus, find?_setFeatureWorktree]
  | true =>
    cases hs : cw.success with
    | false =>
      cases useWorktrees <;>
        simp [runFeature, runFeatureBody, loadFeatures, setupWorktreeForFeature,
          updateExecutionInfo, updateFeatureStatus, implementFeature, emitEvent,
          updateFeatureWorktree, featStatus, hnr, hload, hfind, hgit, hcw, hs, hwu, hsu,
          himpl, hid, find?_setFeatureStatus, find?_setFeatureWorktree]
    | true =>
      cases useWorktrees <;>
        simp [runFeature, runFeatureBody, loadFeatures, setupWorktreeForFeature,
          updateExecutionInfo, updateFeatureStatus, implementFeature, emitEvent,
          updateFeatureWorktree, featStatus, hnr, hload, hfind, hgit, hcw, hs, hwu, hsu,
          himpl, hid, find?_setFeatureStatus, find?_setFeatureWorktree]

/-- Witness for the result-interpretation theorem: the concrete feature
(tests run) finishes verified after a passing run. -/
theorem runFeature_result_interpretation_witness :
    (runFeature happyEnv st0 "/p" "f1" false).1 = .ok { success := true, passes := true } ∧
    featStatus (runFeature happyEnv st0 "/p" "f1" false).2.features "f1" =
      some Status.verified := by
  have h := runFeature_result_interpretation happyEnv st0 "/p" "f1" false feat1
    { passes := true, message := "done" } true
    { success := true, worktreePath := "/wt", branchName := "feat-b", baseBranch := "main",
      error := "" }
    rfl (fun _ => rfl) rfl rfl rfl (fun _ => rfl) (fun _ => rfl) (fun _ => rfl)
  refine ⟨h.1, ?_⟩
  rw [h.2]
  decide

/-- Effect of the shared catch handler when both best-effort writes
succeed: transcript extended by the error block, status forced to
waiting_approval with the error message recorded, and the error event
appended. -/
theorem handleEntryPointError_ok (env : Env) (stB : St) (projectPath featureId e : String)
    (hw : env.writeCtxOutcome stB.writeCtxCalls = .ok ())
    (hsu : env.statusOutcome stB.statusCalls = .ok ()) :
    handleEntryPointError env stB projectPath featureId e =
      { stB with
        transcript := some ((stB.transcript.getD "") ++ errorBlock e),
        writeCtxCalls := stB.writeCtxCalls + 1,
        statusCalls := stB.statusCalls + 1,
        features := setFeatureStatus stB.features featureId .waiting_approval (some e),
        events := stB.events ++ [Event.auto_mode_error projectPath e featureId] } := by
  simp [handleEntryPointError, writeToContextFile, updateFeatureStatus, emitEvent, hw, hsu]

/-- C4 (amended): for runFeature, verifyFeature and resumeFeature, any
uncaught exception from the try-block causes all of the following: the
error appended to the transcript, the error message recorded on the work
item with status forced to waiting_approval, an auto_mode_error event
emitted, the exception re-raised to the caller, and the registry entry
released.  commitFeature, although it also registers an execution, only
emits the event, re-raises and releases, and followUpFeature's caller has
already received success, so neither satisfies the full policy. -/
theorem uncaught_exception_policy (env : Env) (st : St)
    (projectPath featureId : String) (useWorktrees : Bool)
    (hnr : mapHas st.runningFeatures featureId = false)
    (hw : ∀ n, env.writeCtxOutcome n = .ok ())
    (hsu : ∀ n, env.statusOutcome n = .ok ()) :
    (∀ e stB, runFeatureBody env
         { st with runningFeatures := (mapSet st.runningFeatures featureId
             { createExecutionContext with projectPath := projectPath }) }
         projectPath featureId useWorktrees = (.error e, stB) →
       (stB.features.find? (fun f => f.id == featureId)).isSome = true →
       (runFeature env st projectPath featureId useWorktrees).1 = .error e ∧
       (runFeature env st projectPath featureId useWorktrees).2.transcript =
         some ((stB.transcript.getD "") ++ errorBlock e) ∧
       featStatus (runFeature env st projectPath featureId useWorktrees).2.features featureId =
         some Status.waiting_approval ∧
       featError (runFeature env st projectPath featureId useWorktrees).2.features featureId =
         some (some e) ∧
       (runFeature env st projectPath featureId useWorktrees).2.events =
         stB.events ++ [Event.auto_mode_error projectPath e featureId] ∧
       mapHas (runFeature env st projectPath featureId useWorktrees).2.runningFeatures
         featureId = false) ∧
    (∀ e stB, verifyFeatureBody env
         { st with runningFeatures := (mapSet st.runningFeatures featureId
             { createExecutionContext with projectPath := projectPath }) }
         projectPath featureId = (.error e, stB) →
       (stB.features.find? (fun f => f.id == featureId)).isSome = true →
       (verifyFeature env st projectPath featureId).1 = .error e ∧
       (verifyFeature env st projectPath featureId).2.transcript =
         some ((stB.transcript.getD "") ++ errorBlock e) ∧
       featStatus (verifyFeature env st projectPath featureId).2.features featureId =
         some Status.waiting_approval ∧
       featError (verifyFeature env st projectPath featureId).2.features featureId =
         some (some e) ∧
       (verifyFeature env st projectPath featureId).2.events =
         stB.events ++ [Event.auto_mode_error projectPath e featureId] ∧
       mapHas (verifyFeature env st projectPath featureId).2.runningFeatures featureId = false) ∧
    (∀ e stB, resumeFeatureBody env
         { st with runningFeatures := (mapSet st.runningFeatures featureId
             { createExecutionContext with projectPath := projectPath }) }
         projectPath featureId = (.error e, stB) →
       (stB.features.find? (fun f => f.id == featureId)).isSome = true →
       (resumeFeature env st projectPath featureId).1 = .error e ∧
       (resumeFeature env st projectPath featureId).2.transcript =
         some ((stB.transcript.getD "") ++ errorBlock e) ∧
       featStatus (resumeFeature env st projectPath featureId).2.features featureId =
         some Status.waiting_approval ∧
       featError (resumeFeature env st projectPath featureId).2.features featureId =
         some (some e) ∧
       (resumeFeature env st projectPath featureId).2.events =
         stB.events ++ [Event.auto_mode_error projectPath e featureId] ∧
       mapHas (resumeFeature env st projectPath featureId).2.runningFeatures
         featureId = false) := by
  refine ⟨?_, ?_, ?_⟩
  all_goals
    intro e stB hbody hsome
  all_goals
    obtain ⟨f, hf⟩ := Option.isSome_iff_exists.mp hsome
  · have hrun : runFeature env st projectPath featureId useWorktrees =
        (.error e,
         { handleEntryPointError env stB projectPath featureId e with
           runningFeatures := (mapDelete
             (handleEntryPointError env stB projectPath featureId e).runningFeatures
             featureId) }) := by
      simp only [runFeature, hnr, Bool.false_eq_true, if_false]
      rw [hbody]
    rw [hrun, handleEntryPointError_ok env stB projectPath featureId e (hw _) (hsu _)]
    refine ⟨rfl, rfl, ?_, ?_, rfl, mapHas_mapDelete _ _⟩
    · simp [featStatus, find?_setFeatureStatus, hf]
    · simp [featError, find?_setFeatureStatus, hf]
  · have hrun : verifyFeature env st projectPath featureId =
        (.error e,
         { handleEntryPointError env stB projectPath featureId e with
           runningFeatures := (mapDelete
             (handleEntryPointError env stB projectPath featureId e).runningFeatures
             featureId) }) := by
      simp only [verifyFeature, hnr, Bool.false_eq_true, if_false]
      rw [hbody]
    rw [hrun, handleEntryPointError_ok env stB projectPath featureId e (hw _) (hsu _)]
    refine ⟨rfl, rfl, ?_, ?_, rfl, mapHas_mapDelete _ _⟩
    · simp [featStatus, find?_setFeatureStatus, hf]
    · simp [featError, find?_setFeatureStatus, hf]
  · have hrun : resumeFeature env st projectPath featureId =
        (.error e,
         { handleEntryPointError env stB projectPath featureId e with
           runningFeatures := (mapDelete
             (handleEntryPointError env stB projectPath featureId e).runningFeatures
             featureId) }) := by
      simp only [resumeFeature, hnr, Bool.false_eq_true, if_false]
      rw [hbody]
    rw [hrun, handleEntryPointError_ok env stB projectPath featureId e (hw _) (hsu _)]
    refine ⟨rfl, rfl, ?_, ?_, rfl, mapHas_mapDelete _ _⟩
    · simp [featStatus, find?_setFeatureStatus, hf]
    · simp [featError, find?_setFeatureStatus, hf]

/-- Environment whose implementation engine call throws. -/
def throwImplementEnv : Env := { happyEnv with implementOutcome := fun _ => .error "impl boom" }

/-- Witness for the uncaught-exception policy: a concrete engine throw in
runFeature is re-raised, recorded on the item as waiting_approval with the
error message, and the registry entry is released. -/
theorem uncaught_exception_policy_witness :
    (runFeature throwImplementEnv st0 "/p" "f1" false).1 = .error "impl boom" ∧
    featStatus (runFeature throwImplementEnv st0 "/p" "f1" false).2.features "f1" =
      some Status.waiting_approval ∧
    featError (runFeature throwImplementEnv st0 "/p" "f1" false).2.features "f1" =
      some (some "impl boom") ∧
    mapHas (runFeature throwImplementEnv st0 "/p" "f1" false).2.runningFeatures "f1" = false := by
  have h := (uncaught_exception_policy throwImplementEnv st0 "/p" "f1" false rfl
    (fun _ => rfl) (fun _ => rfl)).1 "impl boom"
    (runFeatureBody throwImplementEnv
      { st0 with runningFeatures := (mapSet st0.runningFeatures "f1"
          { createExecutionContext with projectPath := "/p" }) } "/p" "f1" false).2
    (by rfl) (by rfl)
  exact ⟨h.1, h.2.2.1, h.2.2.2.1, h.2.2.2.2.2⟩

/-- Environment whose commit-only engine call throws. -/
def throwCommitEnv : Env := { happyEnv with commitOnlyOutcome := fun _ => .error "commit boom" }

/-- C4 (counterexample): commitFeature registers an execution, yet on an
uncaught engine exception it neither appends the error to the transcript
nor records it on the work item with status waiting_approval — it only
emits the auto_mode_error event, re-raises, and releases the registry
entry. -/
theorem commitFeature_error_handling_gap :
    (commitFeature throwCommitEnv st0 "/p" "f1").1 = .error "commit boom" ∧
    (commitFeature throwCommitEnv st0 "/p" "f1").2.transcript = st0.transcript ∧
    featStatus (commitFeature throwCommitEnv st0 "/p" "f1").2.features "f1" =
      some Status.backlog ∧
    featError (commitFeature throwCommitEnv st0 "/p" "f1").2.features "f1" = some none ∧
    (commitFeature throwCommitEnv st0 "/p" "f1").2.events =
      st0.events ++ [Event.feature_start "/p" "f1",
                     Event.phase "/p" "f1" "action" "Committing changes to git...",
                     Event.auto_mode_error "/p" "commit boom" "f1"] ∧
    (commitFeature throwCommitEnv st0 "/p" "f1").2.runningFeatures = [] :=
  ⟨rfl, rfl, rfl, rfl, rfl, rfl⟩

/-- C5: a resumeFeature run whose engine invocations keep returning a
non-passing result while the stored status stays in_progress performs
exactly 3 additional engine invocations (4 in total), appending a visible
auto-retry marker to the transcript and emitting a progress event before
each retry, and finalizes the status to waiting_approval when the last
result still fails. -/
theorem resumeFeature_bounded_retry (env : Env) (st : St)
    (projectPath featureId msg : String) (feature : Feature)
    (hnr : mapHas st.runningFeatures featureId = false)
    (hload : ∀ n, env.loadOutcome n = .ok ())
    (hfind : st.features.find? (fun f => f.id == featureId) = some feature)
    (hstatus : feature.status = .in_progress)
    (hread : ∀ n, env.readCtxOutcome n = .ok ())
    (hwrite : ∀ n, env.writeCtxOutcome n = .ok ())
    (hsu : ∀ n, env.statusOutcome n = .ok ())
    (heng : ∀ n, env.resumeOutcome n = .ok { passes := false, message := msg })
    (hstore : ∀ n, env.resumeStore n = none) :
    (resumeFeature env st projectPath featureId).1 = .ok { success := true, passes := false } ∧
    (resumeFeature env st projectPath featureId).2.resumeCalls = st.resumeCalls + 4 ∧
    (resumeFeature env st projectPath featureId).2.transcript =
      some ((st.transcript.getD "") ++ retryMarker 1 ++ retryMarker 2 ++ retryMarker 3) ∧
    (resumeFeature env st projectPath featureId).2.events =
      st.events ++ [Event.feature_start projectPath featureId,
                    Event.progress projectPath featureId (retryProgressContent 1),
                    Event.progress projectPath featureId (retryProgressContent 2),
                    Event.progress projectPath featureId (retryProgressContent 3),
                    Event.feature_complete projectPath featureId false msg] ∧
    featStatus (resumeFeature env st projectPath featureId).2.features featureId =
      some Status.waiting_approval := by
  have hid : feature.id = featureId := by
    have h := List.find?_some hfind
    simpa using h
  refine ⟨?_, ?_, ?_, ?_, ?_⟩ <;>
    simp [resumeFeature, resumeFeatureBody, resumeRetryLoop, loadFeatures, readContextFile,
      writeToContextFile, resumeFeatureWithContext, updateFeatureStatus, emitEvent, featStatus,
      hnr, hload, hfind, hstatus, hread, hwrite, hsu, heng, hstore, hid,
      find?_setFeatureStatus]

/-- World with a single in-progress feature, used to drive the retry
loop. -/
def stProg : St := { st0 with features := [feat2] }

/-- Witness for the bounded-retry theorem: the concrete in-progress feature
with an always-failing engine is retried exactly 3 more times (4 engine
invocations) and finalized to waiting_approval. -/
theorem resumeFeature_bounded_retry_witness :
    (resumeFeature happyEnv stProg "/p" "f2").1 = .ok { success := true, passes := false } ∧
    (resumeFeature happyEnv stProg "/p" "f2").2.resumeCalls = 4 ∧
    featStatus (resumeFeature happyEnv stProg "/p" "f2").2.features "f2" =
      some Status.waiting_approval := by
  have h := resumeFeature_bounded_retry happyEnv stProg "/p" "f2" "early" feat2
    rfl (fun _ => rfl) rfl rfl (fun _ => rfl) (fun _ => rfl) (fun _ => rfl)
    (fun _ => rfl) (fun _ => rfl)
  exact ⟨h.1, h.2.1, h.2.2.2.2⟩

end AutoMode
